import Mathlib

/-!
Shallow embedding of the decision-and-replay core of the `trading_system`
repository, and proofs about it.

Numeric values are modelled as exact rationals (`ℚ`): the Python code works
with IEEE floats, and every algebraic identity below is the exact-arithmetic
idealization of the float computation ("within floating-point tolerance" in
the specification's words).  Python operations that can raise are embedded
in `Except String`; the error string names the Python exception.
-/

namespace TradingSystem

/-- Trading action carried by a bar's signal record: the `action` field of
`row['signal']` in `Backtesting.run_backtest`.  The field is `Option Action`
at use sites because a Python dict access `signal['action']` raises
`KeyError` when the key is missing. -/
inductive Action
  | buy
  | sell
  | hold
deriving DecidableEq

/-- Direction of a position or trade; the backtest source only ever writes
the string `'long'`. -/
inductive Direction
  | long
  | short
deriving DecidableEq

/-- Exit reason recorded on a closed trade.  The spec's data model lists all
four; `Backtesting._process_signal` only ever writes `'stop_loss'` and
`'take_profit'`. -/
inductive ExitReason
  | stopLoss
  | takeProfit
  | signalReversal
  | manual
deriving DecidableEq

/-- Open position of the backtest engine: the dict built in
`Backtesting._process_signal` on a BUY with no open position. -/
structure Position where
  entryTime : ℚ
  entryPrice : ℚ
  amount : ℚ
  direction : Direction
  stopLoss : ℚ
  takeProfit : ℚ
deriving DecidableEq

/-- Closed-trade record appended to the backtest ledger by
`Backtesting._process_signal`. -/
structure Trade where
  entryTime : ℚ
  exitTime : ℚ
  entryPrice : ℚ
  exitPrice : ℚ
  amount : ℚ
  direction : Direction
  pnlPct : ℚ
  reason : ExitReason
deriving DecidableEq

/-- One row of the market-data frame handed to `run_backtest`: columns
`timestamp`, `price` and `signal` (the signal dict, reduced to its `action`
field, `none` when the key is absent). -/
structure Bar where
  timestamp : ℚ
  price : ℚ
  signal : Option Action
deriving DecidableEq

/-- One equity-curve point: `{'timestamp': ..., 'balance': ...}`. -/
structure EquityPoint where
  timestamp : ℚ
  balance : ℚ
deriving DecidableEq

/-- Strategy parameters read by `run_backtest` via `strategy_params.get`;
field order: `stop_loss_pct`, `take_profit_pct`, `fee_pct`,
`position_size_pct`. -/
structure Params where
  slPct : ℚ
  tpPct : ℚ
  feePct : ℚ
  positionSizePct : ℚ
deriving DecidableEq

/-- Default strategy parameters: the `.get` defaults 2, 4, 0.1 and 10. -/
def Params.default : Params := ⟨2, 4, 1/10, 10⟩

/-- Result triple of `Backtesting._process_signal`: updated balance, updated
position, trades emitted by this bar. -/
structure StepResult where
  balance : ℚ
  position : Option Position
  newTrades : List Trade
deriving DecidableEq

/-- Embedding of `Backtesting._process_signal`.  With no open position and a
BUY action it opens a long position sized at `position_size_pct` percent of
balance and deducts only the entry commission; with an open long position it
closes on `price ≤ stop_loss` (reason `stop_loss`) or else on
`price ≥ take_profit` (reason `take_profit`), crediting the full exit
notional minus the exit commission.  `signal['action']` is only read when no
position is open (Python's `and` short-circuits), hence the `KeyError` only
on that branch; the divisions `position_size / current_price` and
`current_price / entry_price` raise `ZeroDivisionError` in Python when the
divisor is zero. -/
def processSignal (signal : Option Action) (currentPrice currentTime balance : ℚ)
    (position : Option Position) (slPct tpPct feePercentage positionSizePct : ℚ) :
    Except String StepResult :=
  match position with
  | none =>
    match signal with
    | none => .error "KeyError: action"
    | some a =>
      if a = .buy then
        if currentPrice = 0 then .error "ZeroDivisionError"
        else
          let positionSize := balance * positionSizePct / 100
          let positionAmount := positionSize / currentPrice
          let commission := positionSize * feePercentage / 100
          let pos : Position :=
            { entryTime := currentTime
              entryPrice := currentPrice
              amount := positionAmount
              direction := .long
              stopLoss := currentPrice * (1 - slPct / 100)
              takeProfit := currentPrice * (1 + tpPct / 100) }
          .ok ⟨balance - commission, some pos, []⟩
      else .ok ⟨balance, none, []⟩
  | some pos =>
    if pos.direction = .long then
      if currentPrice ≤ pos.stopLoss then
        if pos.entryPrice = 0 then .error "ZeroDivisionError"
        else
          let pnl := (currentPrice / pos.entryPrice - 1) * 100
          let amountValue := pos.amount * currentPrice
          let commission := amountValue * feePercentage / 100
          .ok ⟨balance + amountValue - commission, none,
            [⟨pos.entryTime, currentTime, pos.entryPrice, currentPrice, pos.amount, .long, pnl,
              .stopLoss⟩]⟩
      else if currentPrice ≥ pos.takeProfit then
        if pos.entryPrice = 0 then .error "ZeroDivisionError"
        else
          let pnl := (currentPrice / pos.entryPrice - 1) * 100
          let amountValue := pos.amount * currentPrice
          let commission := amountValue * feePercentage / 100
          .ok ⟨balance + amountValue - commission, none,
            [⟨pos.entryTime, currentTime, pos.entryPrice, currentPrice, pos.amount, .long, pnl,
              .takeProfit⟩]⟩
      else .ok ⟨balance, some pos, []⟩
    else .ok ⟨balance, some pos, []⟩

/-- Mutable loop state of `run_backtest`: the variables `balance`,
`position`, `trades` and `equity_curve`. -/
structure LoopState where
  balance : ℚ
  position : Option Position
  trades : List Trade
  equity : List EquityPoint
deriving DecidableEq

/-- Embedding of the bar loop of `run_backtest`: for each bar, first append
an equity point carrying the pre-bar balance, then run `_process_signal` and
extend the ledger with the bar's new trades. -/
def runLoop (slPct tpPct feePercentage positionSizePct : ℚ) :
    List Bar → LoopState → Except String LoopState
  | [], st => .ok st
  | bar :: rest, st =>
    match processSignal bar.signal bar.price bar.timestamp st.balance st.position
        slPct tpPct feePercentage positionSizePct with
    | .error e => .error e
    | .ok r =>
      runLoop slPct tpPct feePercentage positionSizePct rest
        ⟨r.balance, r.position, st.trades ++ r.newTrades,
          st.equity ++ [⟨bar.timestamp, st.balance⟩]⟩

/-- Value of the `profit_factor` metric: a finite float or the explicitly
encoded `float('inf')`. -/
inductive XFloat
  | num (q : ℚ)
  | inf
deriving DecidableEq

/-- Performance-metrics record of
`Backtesting._calculate_performance_metrics`.  The `sharpe_ratio` entry of
the Python dict is `(mean/std)·sqrt(252)` of the per-bar return series — an
irrational value not representable in `ℚ` — and its computation never
raises (the `std > 0` branch guards the division); no claim concerns its
value, so the field is omitted from this record. -/
structure Metrics where
  totalReturnPct : ℚ
  profitFactor : XFloat
  winRate : ℚ
  maxDrawdownPct : ℚ
  totalTrades : ℕ
  winningTrades : ℕ
  losingTrades : ℕ
deriving DecidableEq

/-- Running maximum seeded with `m`: tail of pandas `cummax`. -/
def cummaxFrom (m : ℚ) : List ℚ → List ℚ
  | [] => []
  | x :: xs => max m x :: cummaxFrom (max m x) xs

/-- Pandas `Series.cummax`. -/
def cummax : List ℚ → List ℚ
  | [] => []
  | x :: xs => x :: cummaxFrom x xs

/-- Running minimum seeded with `m`: pandas `Series.min` helper. -/
def minimumFrom (m : ℚ) : List ℚ → ℚ
  | [] => m
  | x :: xs => minimumFrom (min m x) xs

/-- Maximum drawdown of a balance series, in percent:
`abs(min((balance - peak) / peak * 100))`.  When a peak is zero pandas
yields a non-raising inf/NaN float; `ℚ` division by zero yields 0 — the
difference is unreachable for the nonzero initial capitals the theorems
below use and no claim consults this value. -/
def calcMaxDrawdown (balances : List ℚ) : ℚ :=
  let peaks := cummax balances
  let dds := List.zipWith (fun b p => (b - p) / p * 100) balances peaks
  match dds with
  | [] => 0
  | d :: ds => |minimumFrom d ds|

/-- Embedding of `Backtesting._calculate_performance_metrics`.  With no
trades it returns the all-zero record (profit factor finite 0).  Otherwise,
in the source's evaluation order: `(final - initial)/initial` raises
`ZeroDivisionError` when `initial_capital` is zero; then
`pd.DataFrame(equity_curve)['balance']` raises `KeyError` when the equity
curve is empty; `win_rate` divides by the (nonzero) trade count;
`profit_factor` is `total_profit / total_loss` when `total_loss > 0` and
the explicitly encoded infinity otherwise. -/
def calculatePerformanceMetrics (initialCapital finalBalance : ℚ)
    (trades : List Trade) (equityCurve : List EquityPoint) : Except String Metrics :=
  if trades = [] then
    .ok ⟨0, .num 0, 0, 0, 0, 0, 0⟩
  else if initialCapital = 0 then .error "ZeroDivisionError"
  else if equityCurve = [] then .error "KeyError: balance"
  else
    let totalReturn := (finalBalance - initialCapital) / initialCapital * 100
    let winningTrades := trades.filter (fun t => decide (t.pnlPct > 0))
    let losingTrades := trades.filter (fun t => decide (t.pnlPct ≤ 0))
    let winRate := (winningTrades.length : ℚ) / (trades.length : ℚ)
    let totalProfit := (winningTrades.map (fun t => t.pnlPct)).sum
    let totalLoss := |(losingTrades.map (fun t => t.pnlPct)).sum|
    let profitFactor := if totalLoss > 0 then XFloat.num (totalProfit / totalLoss) else XFloat.inf
    let maxDD := calcMaxDrawdown (equityCurve.map (fun e => e.balance))
    .ok ⟨totalReturn, profitFactor, winRate, maxDD, trades.length,
      winningTrades.length, losingTrades.length⟩

/-- Backtest report record. -/
structure Report where
  symbol : String
  startDate : ℚ
  endDate : ℚ
  initialCapital : ℚ
  finalBalance : ℚ
  trades : List Trade
  equityCurve : List EquityPoint
  metrics : Metrics
deriving DecidableEq

/-- Modelled from the spec: `run_backtest` ends by calling
`self._generate_report(symbol, start_date, end_date, initial_capital,
performance_metrics, trades, equity_curve)`, but `_generate_report` is not
defined anywhere in the source tree.  The spec's replay-engine contract is
`run(...) -> (trade_ledger, equity_curve, metrics)`, so the report is
modelled as the record of exactly the arguments that call passes, which
contains that triple. -/
def generateReport (symbol : String) (startDate endDate initialCapital finalBalance : ℚ)
    (metrics : Metrics) (trades : List Trade) (equityCurve : List EquityPoint) : Report :=
  ⟨symbol, startDate, endDate, initialCapital, finalBalance, trades, equityCurve, metrics⟩

/-- Embedding of `Backtesting.run_backtest`: filter the market data to the
date window, run the bar loop from the initial capital with no open
position, compute the performance metrics, assemble the report. -/
def runBacktest (symbol : String) (startDate endDate initialCapital : ℚ) (params : Params)
    (marketData : List Bar) : Except String Report :=
  let bars := marketData.filter
    (fun b => decide (startDate ≤ b.timestamp) && decide (b.timestamp ≤ endDate))
  match runLoop params.slPct params.tpPct params.feePct params.positionSizePct bars
      ⟨initialCapital, none, [], []⟩ with
  | .error e => .error e
  | .ok st =>
    match calculatePerformanceMetrics initialCapital st.balance st.trades st.equity with
    | .error e => .error e
    | .ok m =>
      .ok (generateReport symbol startDate endDate initialCapital st.balance m st.trades st.equity)

/-- Decidable equality for `Except`, so concrete runs can be checked by
`decide`. -/
instance {α β : Type} [DecidableEq α] [DecidableEq β] : DecidableEq (Except α β) :=
  fun a b =>
    match a, b with
    | .ok x, .ok y =>
      if h : x = y then .isTrue (by rw [h]) else .isFalse (by simp [h])
    | .error x, .error y =>
      if h : x = y then .isTrue (by rw [h]) else .isFalse (by simp [h])
    | .ok _, .error _ => .isFalse (by simp)
    | .error _, .ok _ => .isFalse (by simp)

/-! ### Association-list model of Python dicts -/

/-- Lookup in an association list: Python `d.get(k)` / `d[k]`. -/
def alookup {α : Type} : List (String × α) → String → Option α
  | [], _ => none
  | p :: rest, k => if p.1 = k then some p.2 else alookup rest k

/-- Assignment `d[k] = v` on a Python dict: replace the binding in place if
the key is present, otherwise append it. -/
def aset {α : Type} : List (String × α) → String → α → List (String × α)
  | [], k, v => [(k, v)]
  | p :: rest, k, v => if p.1 = k then (k, v) :: rest else p :: aset rest k v

/-- Removal `d.pop(k, None)` on a Python dict: drop the binding for `k`. -/
def aremove {α : Type} : List (String × α) → String → List (String × α)
  | [], _ => []
  | p :: rest, k => if p.1 = k then rest else p :: aremove rest k

/-- Keys of an association list. -/
def keysOf {α : Type} (l : List (String × α)) : List String := l.map Prod.fst

/-! ### RiskManager (src/core/strategy/risk_manager.py) -/

/-- State of `RiskManager`: the constructor sets `account_balance` (default
10000.0) and `max_risk_per_trade = 0.02`. -/
structure RiskManager where
  accountBalance : ℚ
  maxRiskPerTrade : ℚ
deriving DecidableEq

/-- RiskManager instance with the constructor defaults. -/
def RiskManager.mkDefault : RiskManager := ⟨10000, 2/100⟩

/-- Embedding of `RiskManager.calculate_position_size`:
`risk_amount / |entry_price - stop_loss|` when the stop distance is
positive, `0` otherwise (guarded ternary, no division by zero is ever
evaluated). -/
def RiskManager.calculatePositionSize (rm : RiskManager) (stopLoss entryPrice : ℚ) : ℚ :=
  let riskAmount := rm.accountBalance * rm.maxRiskPerTrade
  let riskPerUnit := |entryPrice - stopLoss|
  if riskPerUnit > 0 then riskAmount / riskPerUnit else 0

/-! ### PositionManager (src/core/strategy/position_manager.py) -/

/-- Live position dict stored in `PositionManager.positions[symbol]`. -/
structure LivePosition where
  side : String
  quantity : ℚ
  entryPrice : ℚ
  stopLoss : ℚ
  takeProfit : ℚ
deriving DecidableEq

/-- Signal dict handed to `PositionManager.execute`: an integer `signal`
(0 hold, 1 buy, -1 sell) plus stop/take levels. -/
structure LiveSignal where
  signal : ℤ
  stopLoss : ℚ
  takeProfit : ℚ
deriving DecidableEq

/-- Mutable state of a `PositionManager`: the `positions` and
`last_trade_time` dicts and the `min_trade_interval` constant (60 in the
constructor).  Wall-clock time (`time.time()`) is passed explicitly to the
operations below. -/
structure PMState where
  positions : List (String × LivePosition)
  lastTradeTime : List (String × ℚ)
  minTradeInterval : ℚ
deriving DecidableEq

/-- Fresh `PositionManager` state as built by `__init__`. -/
def PMState.init : PMState := ⟨[], [], 60⟩

/-- Embedding of `PositionManager._can_trade`: at least
`min_trade_interval` seconds since the last recorded trade on the symbol
(`last_trade_time.get(symbol, 0)`). -/
def canTrade (st : PMState) (symbol : String) (now : ℚ) : Bool :=
  decide (now - ((alookup st.lastTradeTime symbol).getD 0) ≥ st.minTradeInterval)

/-- Embedding of `PositionManager.execute`.  The symbol is the hard-coded
`"BTCUSDT"`; signal 0 and an unexpired trade interval both return with no
state change.  Past those guards the source always raises: it calls
`self.risk_manager.calculate_position_size(risk_per_trade=..., volatility=...,
method=...)`, but `RiskManager.calculate_position_size` accepts only
`(stop_loss, entry_price)`, so Python raises `TypeError` (after
`_get_volatility`, which itself can raise `NameError` because the module
never imports `pd`); in every raising path no state has been mutated. -/
def pmExecute (st : PMState) (sig : LiveSignal) (now : ℚ) : Except String PMState :=
  if sig.signal = 0 then .ok st
  else if canTrade st "BTCUSDT" now = false then .ok st
  else .error "TypeError: calculate_position_size got an unexpected keyword argument"

/-- Embedding of `PositionManager._open_position`: when the connector
returns a truthy order (modelled as `some fillPrice`, the price of the first
fill), record the position under the symbol and stamp `last_trade_time`;
a falsy order leaves the state unchanged. -/
def pmOpenPosition (st : PMState) (symbol side : String)
    (quantity stopLoss takeProfit : ℚ) (order : Option ℚ) (now : ℚ) : PMState :=
  match order with
  | none => st
  | some fillPrice =>
    { st with
      positions := aset st.positions symbol ⟨side, quantity, fillPrice, stopLoss, takeProfit⟩
      lastTradeTime := aset st.lastTradeTime symbol now }

/-- Embedding of `PositionManager._close_position`: pop the symbol's
position; the opposite market order sent to the connector is a collaborator
call with no further state change. -/
def pmClosePosition (st : PMState) (symbol : String) : PMState :=
  { st with positions := aremove st.positions symbol }

/-- Stop-loss check of the `monitor_positions` loop body for a snapshot
entry: a long closes on price at or below the stop, a short on price at or
above it. -/
def pmMonitorSL (priceOf : String → ℚ) (st : PMState) (entry : String × LivePosition) :
    PMState :=
  if (entry.2.side = "BUY" ∧ priceOf entry.1 ≤ entry.2.stopLoss) ∨
      (entry.2.side = "SELL" ∧ priceOf entry.1 ≥ entry.2.stopLoss) then
    pmClosePosition st entry.1
  else st

/-- Take-profit check of the `monitor_positions` loop body for a snapshot
entry: a long closes on price at or above the target, a short on price at
or below it. -/
def pmMonitorTP (priceOf : String → ℚ) (st : PMState) (entry : String × LivePosition) :
    PMState :=
  if (entry.2.side = "BUY" ∧ priceOf entry.1 ≥ entry.2.takeProfit) ∨
      (entry.2.side = "SELL" ∧ priceOf entry.1 ≤ entry.2.takeProfit) then
    pmClosePosition st entry.1
  else st

/-- One iteration of the `monitor_positions` loop body for a snapshot entry:
the stop-loss `if` runs first, then — in a separate `if` on the same
snapshot entry — the take-profit check; each breach closes via
`_close_position` (a second close on an already-popped symbol is a no-op
since `pop` returns `None`). -/
def pmMonitorOne (priceOf : String → ℚ) (st : PMState) (entry : String × LivePosition) :
    PMState :=
  pmMonitorTP priceOf (pmMonitorSL priceOf st entry) entry

/-- Embedding of `PositionManager.monitor_positions`: iterate over a
snapshot of the positions dict (`list(self.positions.items())`), closing
breached positions.  The per-symbol price fetch is the collaborator
parameter `priceOf`. -/
def pmMonitorPositions (priceOf : String → ℚ) (st : PMState) : PMState :=
  st.positions.foldl (pmMonitorOne priceOf) st

/-- One externally triggered `PositionManager` operation. -/
inductive PMOp
  | exec (sig : LiveSignal) (now : ℚ)
  | openPos (symbol side : String) (quantity stopLoss takeProfit : ℚ)
      (order : Option ℚ) (now : ℚ)
  | monitor (priceOf : String → ℚ)
  | close (symbol : String)

/-- Apply one operation to the manager state.  A raising `execute` leaves
the state as it was (no mutation happens before the raise in the source). -/
def pmStep (st : PMState) : PMOp → PMState
  | .exec sig now =>
    match pmExecute st sig now with
    | .ok s => s
    | .error _ => st
  | .openPos symbol side quantity stopLoss takeProfit order now =>
    pmOpenPosition st symbol side quantity stopLoss takeProfit order now
  | .monitor priceOf => pmMonitorPositions priceOf st
  | .close symbol => pmClosePosition st symbol

/-- Apply a sequence of operations. -/
def pmRun (st : PMState) (ops : List PMOp) : PMState := ops.foldl pmStep st

/-! ### TraderBase (src/traders/trader_base.py) -/

/-- Trader lifecycle state: the string `self.state`. -/
inductive TraderState
  | active
  | inactive
  | paused
  | error
deriving DecidableEq

/-- Outcome of one `_execute_cycle` attempt: normal return, or an exception
with its message. -/
inductive CycleOutcome
  | ok
  | raises (msg : String)
deriving DecidableEq

/-- Embedding of `TraderBase._trading_loop`: `while self.state == "active"`,
run `_execute_cycle`; on an exception, log it, notify, set
`self.state = "error"` and `break`.  The input list supplies the outcome of
each successive cycle attempt; the result is the final state paired with
the number of cycles actually executed.  The function is total: an
exception inside a cycle is caught and never propagates out of the loop. -/
def tradingLoop : List CycleOutcome → TraderState → TraderState × ℕ
  | [], s => (s, 0)
  | c :: rest, s =>
    if s = .active then
      match c with
      | .ok =>
        let r := tradingLoop rest s
        (r.1, r.2 + 1)
      | .raises _ => (.error, 1)
    else (s, 0)

/-! ### SignalGenerator (src/core/strategy/signal_generator.py) -/

/-- Market-data dict for one symbol, with each key optional (`none` models
absence of the key).  The source only ever reads or writes the keys
`price`, `volume` and `close`; the `synthetic` field stands for the
synthetic-history flag the specification claims is attached — `some b`
would model a dict that carries such a key, `none` a dict without it.
`_prepare_market_data` never writes any such key. -/
structure MktData where
  price : Option ℚ
  volume : Option ℚ
  close : Option (List ℚ)
  synthetic : Option Bool
deriving DecidableEq

/-- Value stored under a symbol in the outer market-data dict: either a dict
or some non-dict value (the `isinstance(..., dict)` test in the source). -/
inductive MVal
  | dict (d : MktData)
  | nonDict
deriving DecidableEq

/-- Python `'BTC' in symbol`. -/
def containsBTC (symbol : String) : Bool :=
  decide ((symbol.splitOn "BTC").length > 1)

/-- Default price by symbol: `50000 if 'BTC' in symbol else 1500`. -/
def defaultPrice (symbol : String) : ℚ :=
  if containsBTC symbol then 50000 else 1500

/-- Synthetic five-point close series anchored on the current price:
`[p*0.97, p*0.98, p*0.99, p, p*1.01]` (the pandas index of five timestamps
carries no information the claims touch and is not modelled). -/
def syntheticClose (currentPrice : ℚ) : List ℚ :=
  [currentPrice * (97/100), currentPrice * (98/100), currentPrice * (99/100),
    currentPrice, currentPrice * (101/100)]

/-- Field-defaulting part of `_prepare_market_data`: default `price` (by
symbol) and `volume` (100) when missing, then synthesize the close series
from the (possibly defaulted) current price when the `close` key is absent.
No synthetic flag is written; whatever `synthetic` value the input carried
is copied through unchanged (`data = market_data[symbol].copy()`). -/
def fillMissingFields (symbol : String) (d : MktData) : MktData :=
  let price :=
    match d.price with
    | some p => p
    | none => defaultPrice symbol
  let volume :=
    match d.volume with
    | some v => v
    | none => 100
  let close :=
    match d.close with
    | some c => some c
    | none => some (syntheticClose price)
  ⟨some price, some volume, close, d.synthetic⟩

/-- Embedding of `SignalGenerator._create_default_market_data`: full
synthetic record for a symbol absent from the market data. -/
def createDefaultMarketData (symbol : String) : MktData :=
  let basePrice := defaultPrice symbol
  ⟨some basePrice, some 100, some (syntheticClose basePrice), none⟩

/-- Embedding of `SignalGenerator._prepare_market_data`: missing symbol goes
to the default record; a non-dict entry is replaced by
`{'price': 50000, 'volume': 100}`; a dict entry is copied; then missing
fields are defaulted and missing history synthesized. -/
def prepareMarketData (symbol : String) (marketData : List (String × MVal)) : MktData :=
  match alookup marketData symbol with
  | none => createDefaultMarketData symbol
  | some .nonDict => fillMissingFields symbol ⟨some 50000, some 100, none, none⟩
  | some (.dict d) => fillMissingFields symbol d

/-! ### Helper lemmas on the dict model -/

theorem keysOf_cons {α : Type} (p : String × α) (l : List (String × α)) :
    keysOf (p :: l) = p.1 :: keysOf l := rfl

theorem mem_keysOf_aset {α : Type} {l : List (String × α)} {k x : String} {v : α}
    (hx : x ∈ keysOf (aset l k v)) : x ∈ keysOf l ∨ x = k := by
  induction l with
  | nil =>
    simp only [aset, keysOf, List.map, List.mem_singleton] at hx
    exact Or.inr hx
  | cons p rest ih =>
    by_cases h : p.1 = k
    · simp only [aset, if_pos h, keysOf_cons, List.mem_cons] at hx
      rcases hx with h1 | h1
      · exact Or.inr h1
      · exact Or.inl (by rw [keysOf_cons]; exact List.mem_cons_of_mem _ h1)
    · simp only [aset, if_neg h, keysOf_cons, List.mem_cons] at hx
      rcases hx with h1 | h1
      · exact Or.inl (by rw [keysOf_cons, List.mem_cons]; exact Or.inl h1)
      · rcases ih h1 with h2 | h2
        · exact Or.inl (by rw [keysOf_cons]; exact List.mem_cons_of_mem _ h2)
        · exact Or.inr h2

theorem nodup_keysOf_aset {α : Type} {l : List (String × α)} {k : String} {v : α}
    (h : (keysOf l).Nodup) : (keysOf (aset l k v)).Nodup := by
  induction l with
  | nil => simp [aset, keysOf]
  | cons p rest ih =>
    rw [keysOf_cons, List.nodup_cons] at h
    by_cases hk : p.1 = k
    · simp only [aset, if_pos hk, keysOf_cons]
      rw [List.nodup_cons]
      exact ⟨hk ▸ h.1, h.2⟩
    · simp only [aset, if_neg hk, keysOf_cons]
      rw [List.nodup_cons]
      refine ⟨?_, ih h.2⟩
      intro hmem
      rcases mem_keysOf_aset hmem with h2 | h2
      · exact h.1 h2
      · exact hk h2

theorem mem_keysOf_aremove {α : Type} {l : List (String × α)} {k x : String}
    (hx : x ∈ keysOf (aremove l k)) : x ∈ keysOf l := by
  induction l with
  | nil => simp [aremove, keysOf] at hx
  | cons p rest ih =>
    by_cases h : p.1 = k
    · simp only [aremove, if_pos h] at hx
      rw [keysOf_cons]
      exact List.mem_cons_of_mem _ hx
    · simp only [aremove, if_neg h, keysOf_cons, List.mem_cons] at hx
      rw [keysOf_cons, List.mem_cons]
      rcases hx with h1 | h1
      · exact Or.inl h1
      · exact Or.inr (ih h1)

theorem nodup_keysOf_aremove {α : Type} {l : List (String × α)} {k : String}
    (h : (keysOf l).Nodup) : (keysOf (aremove l k)).Nodup := by
  induction l with
  | nil => simpa [aremove] using h
  | cons p rest ih =>
    rw [keysOf_cons, List.nodup_cons] at h
    by_cases hk : p.1 = k
    · simpa only [aremove, if_pos hk] using h.2
    · simp only [aremove, if_neg hk, keysOf_cons]
      rw [List.nodup_cons]
      exact ⟨fun hmem => h.1 (mem_keysOf_aremove hmem), ih h.2⟩

theorem nodup_pmClosePosition {st : PMState} {symbol : String}
    (h : (keysOf st.positions).Nodup) :
    (keysOf (pmClosePosition st symbol).positions).Nodup :=
  nodup_keysOf_aremove h

theorem nodup_pmOpenPosition {st : PMState} {symbol side : String}
    {quantity stopLoss takeProfit : ℚ} {order : Option ℚ} {now : ℚ}
    (h : (keysOf st.positions).Nodup) :
    (keysOf (pmOpenPosition st symbol side quantity stopLoss takeProfit order now).positions).Nodup := by
  cases order with
  | none => exact h
  | some fillPrice => exact nodup_keysOf_aset h

theorem nodup_pmMonitorSL {priceOf : String → ℚ} {st : PMState}
    {entry : String × LivePosition} (h : (keysOf st.positions).Nodup) :
    (keysOf (pmMonitorSL priceOf st entry).positions).Nodup := by
  unfold pmMonitorSL
  split
  · exact nodup_pmClosePosition h
  · exact h

theorem nodup_pmMonitorTP {priceOf : String → ℚ} {st : PMState}
    {entry : String × LivePosition} (h : (keysOf st.positions).Nodup) :
    (keysOf (pmMonitorTP priceOf st entry).positions).Nodup := by
  unfold pmMonitorTP
  split
  · exact nodup_pmClosePosition h
  · exact h

theorem nodup_pmMonitorOne {priceOf : String → ℚ} {st : PMState}
    {entry : String × LivePosition} (h : (keysOf st.positions).Nodup) :
    (keysOf (pmMonitorOne priceOf st entry).positions).Nodup :=
  nodup_pmMonitorTP (nodup_pmMonitorSL h)

theorem nodup_foldl_monitor (priceOf : String → ℚ) :
    ∀ (l : List (String × LivePosition)) (st : PMState),
      (keysOf st.positions).Nodup →
      (keysOf (l.foldl (pmMonitorOne priceOf) st).positions).Nodup
  | [], _, h => h
  | e :: rest, st, h =>
    nodup_foldl_monitor priceOf rest (pmMonitorOne priceOf st e) (nodup_pmMonitorOne h)

theorem pmStep_exec (st : PMState) (sig : LiveSignal) (now : ℚ) :
    pmStep st (.exec sig now) = st := by
  by_cases h0 : sig.signal = 0
  · simp [pmStep, pmExecute, h0]
  · by_cases h1 : canTrade st "BTCUSDT" now = false
    · simp [pmStep, pmExecute, h0, h1]
    · simp [pmStep, pmExecute, h0, h1]

theorem nodup_pmStep {st : PMState} (op : PMOp) (h : (keysOf st.positions).Nodup) :
    (keysOf (pmStep st op).positions).Nodup := by
  cases op with
  | exec sig now => rw [pmStep_exec]; exact h
  | openPos symbol side quantity stopLoss takeProfit order now =>
    exact nodup_pmOpenPosition h
  | monitor priceOf => exact nodup_foldl_monitor priceOf st.positions st h
  | close symbol => exact nodup_pmClosePosition h

theorem nodup_pmRun :
    ∀ (ops : List PMOp) (st : PMState), (keysOf st.positions).Nodup →
      (keysOf (pmRun st ops).positions).Nodup
  | [], _, h => h
  | op :: rest, st, h => nodup_pmRun rest (pmStep st op) (nodup_pmStep op h)

/-! ### Claim C4 -/

/-- C4: for every symbol and every sequence of execute, monitor and
backtest-bar steps, the position state holds at most one open position per
symbol at every instant.  Live side: the `positions` dict, modelled as an
association list with Python-dict insertion/removal, keeps its keys free of
duplicates under every operation sequence, so a symbol indexes at most one
position.  Backtest side: the loop state's `position` is a single optional
value, so it holds 0 or 1 positions. -/
theorem c4_at_most_one_open_position
    (ops : List PMOp) (st : PMState) (h : (keysOf st.positions).Nodup)
    (slPct tpPct feePercentage positionSizePct : ℚ) (bars : List Bar)
    (st0 st2 : LoopState)
    (_hrun : runLoop slPct tpPct feePercentage positionSizePct bars st0 = .ok st2) :
    (keysOf (pmRun st ops).positions).Nodup ∧ st2.position.toList.length ≤ 1 := by
  refine ⟨nodup_pmRun ops st h, ?_⟩
  cases st2.position with
  | none => simp
  | some p => simp

/-- Witness for C4: a concrete operation sequence that opens positions on
two symbols, executes a signal, monitors, and closes one, starting from a
fresh manager, paired with a concrete one-bar backtest run. -/
theorem c4_witness :
    (keysOf (pmRun PMState.init
      [PMOp.openPos "BTCUSDT" "BUY" 1 95 110 (some 100) 0,
        PMOp.openPos "ETHUSDT" "BUY" 2 10 20 (some 15) 5,
        PMOp.exec ⟨1, 1, 2⟩ 10,
        PMOp.monitor (fun _ => 99),
        PMOp.close "BTCUSDT"]).positions).Nodup ∧
    (LoopState.mk (9999/100) (some ⟨0, 100, 1/10, .long, 98, 104⟩) [] [⟨0, 100⟩]).position.toList.length ≤ 1 :=
  c4_at_most_one_open_position _ PMState.init (by decide) 2 4 (1/10) 10
    [⟨0, 100, some Action.buy⟩] ⟨100, none, [], []⟩ _
    (by norm_num [runLoop, processSignal])

/-! ### Claim C5 -/

/-- C5 (amended): when one trading cycle raises, `_trading_loop` catches the
exception (the loop function returns normally, so the session thread does
not crash), logs and notifies, sets the trader state to `error`, and exits
the loop at once: exactly one cycle has run and no later cycle is ever
attempted — a single bad cycle permanently halts the trading loop rather
than resuming. -/
theorem c5_bad_cycle_halts_loop (msg : String) (rest : List CycleOutcome) :
    tradingLoop (CycleOutcome.raises msg :: rest) .active = (.error, 1) := by
  simp [tradingLoop]

/-- Counterexample for C5 as stated: with outcomes [raise, ok] the claim
says the loop resumes on the next cycle (both cycles execute and the loop
stays alive); the code executes only the first cycle and finishes in the
`error` state. -/
theorem c5_counterexample :
    tradingLoop [CycleOutcome.raises "boom", CycleOutcome.ok] .active = (.error, 1) ∧
    (tradingLoop [CycleOutcome.raises "boom", CycleOutcome.ok] .active).2 < 2 := by
  constructor
  · simp [tradingLoop]
  · simp [tradingLoop]

/-! ### Claim C9 -/

/-- C9: position sizing returns `account_balance * risk_fraction /
|entry_price - stop_loss|` and 0 when the stop distance is zero; the
division sits under the positivity guard, and the embedding is a total
function — no exception is possible. -/
theorem c9_position_sizing (rm : RiskManager) (stopLoss entryPrice : ℚ) :
    (stopLoss = entryPrice → rm.calculatePositionSize stopLoss entryPrice = 0) ∧
    (stopLoss ≠ entryPrice →
      rm.calculatePositionSize stopLoss entryPrice =
        rm.accountBalance * rm.maxRiskPerTrade / |entryPrice - stopLoss|) := by
  constructor
  · intro h
    simp [RiskManager.calculatePositionSize, h]
  · intro h
    have hpos : |entryPrice - stopLoss| > 0 :=
      abs_pos.mpr (sub_ne_zero.mpr (Ne.symm h))
    show (if |entryPrice - stopLoss| > 0 then
        rm.accountBalance * rm.maxRiskPerTrade / |entryPrice - stopLoss| else 0) =
      rm.accountBalance * rm.maxRiskPerTrade / |entryPrice - stopLoss|
    rw [if_pos hpos]

/-- Witness for C9: the default manager (balance 10000, risk 2%) sizing a
position with entry 100 and stop 95 gets `10000·0.02/5 = 40`; with stop
equal to entry it gets 0. -/
theorem c9_witness :
    RiskManager.calculatePositionSize ⟨10000, 2/100⟩ 95 100 = 40 ∧
    RiskManager.calculatePositionSize ⟨10000, 2/100⟩ 100 100 = 0 := by
  constructor
  · have h := (c9_position_sizing ⟨10000, 2/100⟩ 95 100).2 (by norm_num)
    rw [h]
    norm_num
  · exact (c9_position_sizing ⟨10000, 2/100⟩ 100 100).1 rfl

/-! ### Claim C6 -/

/-- C6 (amended): when the market data for a symbol carries no `close`
series, `_prepare_market_data` synthesizes the five-point series anchored
on the current price instead of failing, but writes no synthetic flag of
any kind: the prepared dict's flag field is exactly whatever the input
carried (absent unless the caller invented one), so a consumer cannot
detect from the prepared data that the history was fabricated. -/
theorem c6_synthetic_series_without_flag
    (symbol : String) (marketData : List (String × MVal)) (d : MktData) (p : ℚ)
    (hd : alookup marketData symbol = some (MVal.dict d))
    (hclose : d.close = none) (hprice : d.price = some p) :
    (prepareMarketData symbol marketData).close = some (syntheticClose p) ∧
    (prepareMarketData symbol marketData).price = some p ∧
    (prepareMarketData symbol marketData).synthetic = d.synthetic := by
  simp [prepareMarketData, hd, fillMissingFields, hclose, hprice]

/-- Witness for C6: a concrete dict with a price and no history gets the
anchored synthetic series and an unchanged (absent) flag. -/
theorem c6_witness :
    (prepareMarketData "ETH" [("ETH", MVal.dict ⟨some 200, none, none, none⟩)]).close =
      some (syntheticClose 200) ∧
    (prepareMarketData "ETH" [("ETH", MVal.dict ⟨some 200, none, none, none⟩)]).price = some 200 ∧
    (prepareMarketData "ETH" [("ETH", MVal.dict ⟨some 200, none, none, none⟩)]).synthetic =
      (MktData.mk (some 200) none none none).synthetic :=
  c6_synthetic_series_without_flag "ETH" _ ⟨some 200, none, none, none⟩ 200
    (by simp [alookup]) rfl rfl

/-- Counterexample for C6 as stated: for BTC/USDT market data holding a
price and volume but no close series, the prepared data contains a
synthesized close series yet its synthetic-flag slot is `none` — no
explicit synthetic flag is carried, contradicting the claim that a
consumer can detect fabricated history. -/
theorem c6_counterexample :
    (prepareMarketData "BTC/USDT"
      [("BTC/USDT", MVal.dict ⟨some 100, some 5, none, none⟩)]).synthetic = none ∧
    (prepareMarketData "BTC/USDT"
      [("BTC/USDT", MVal.dict ⟨some 100, some 5, none, none⟩)]).close =
      some [97, 98, 99, 100, 101] := by
  constructor
  · simp [prepareMarketData, alookup, fillMissingFields]
  · norm_num [prepareMarketData, alookup, fillMissingFields, syntheticClose]

/-! ### Claim C8 -/

/-- Helper: with an open position, `_process_signal` never inspects the
signal (the Python `elif position is not None` branch reads only price and
position), so its result is independent of the bar's action. -/
theorem processSignal_ignores_signal_when_open (sig1 sig2 : Option Action)
    (currentPrice currentTime balance : ℚ) (pos : Position)
    (slPct tpPct feePercentage positionSizePct : ℚ) :
    processSignal sig1 currentPrice currentTime balance (some pos)
      slPct tpPct feePercentage positionSizePct =
    processSignal sig2 currentPrice currentTime balance (some pos)
      slPct tpPct feePercentage positionSizePct := rfl

/-- C8 (amended): in the live execute path, any BUY/SELL signal arriving
less than `min_trade_interval` seconds after the last recorded trade on
the symbol returns with no state change and no order (`_can_trade` guards
it).  In the backtest replay path there is no interval check at all; a
second BUY is a no-op only while the position is still open, because the
open-position branch ignores the signal entirely. -/
theorem c8_reentry_throttling :
    (∀ (st : PMState) (sig : LiveSignal) (now t0 : ℚ),
      alookup st.lastTradeTime "BTCUSDT" = some t0 →
      now - t0 < st.minTradeInterval →
      pmExecute st sig now = .ok st) ∧
    (∀ (a1 a2 : Action) (currentPrice currentTime balance : ℚ) (pos : Position)
        (slPct tpPct feePercentage positionSizePct : ℚ),
      processSignal (some a1) currentPrice currentTime balance (some pos)
        slPct tpPct feePercentage positionSizePct =
      processSignal (some a2) currentPrice currentTime balance (some pos)
        slPct tpPct feePercentage positionSizePct) := by
  constructor
  · intro st sig now t0 hlast hlt
    by_cases h0 : sig.signal = 0
    · simp [pmExecute, h0]
    · have hct : canTrade st "BTCUSDT" now = false := by
        unfold canTrade
        rw [hlast]
        simp only [Option.getD_some]
        exact decide_eq_false (not_le.mpr hlt)
      simp [pmExecute, h0, hct]
  · intro a1 a2 currentPrice currentTime balance pos slPct tpPct feePercentage positionSizePct
    exact processSignal_ignores_signal_when_open (some a1) (some a2) currentPrice currentTime
      balance pos slPct tpPct feePercentage positionSizePct

/-- Witness for C8: a manager whose last BTCUSDT trade was at time 0 drops
a BUY arriving at time 30 (interval 60) without touching its state; and a
bar with an open position yields the same step result for BUY as for
HOLD. -/
theorem c8_witness :
    pmExecute ⟨[], [("BTCUSDT", 0)], 60⟩ ⟨1, 95, 110⟩ 30 = .ok ⟨[], [("BTCUSDT", 0)], 60⟩ ∧
    processSignal (some Action.buy) 100 1 1000 (some ⟨0, 100, 1, .long, 98, 104⟩)
      2 4 (1/10) 10 =
    processSignal (some Action.hold) 100 1 1000 (some ⟨0, 100, 1, .long, 98, 104⟩)
      2 4 (1/10) 10 :=
  ⟨c8_reentry_throttling.1 ⟨[], [("BTCUSDT", 0)], 60⟩ ⟨1, 95, 110⟩ 30 0
      (by simp [alookup]) (by norm_num),
    c8_reentry_throttling.2 Action.buy Action.hold 100 1 1000 ⟨0, 100, 1, .long, 98, 104⟩
      2 4 (1/10) 10⟩

/-- Counterexample for C8 as stated: in the backtest replay path, a BUY at
t = 0 opens a position, the take-profit bar at t = 10 closes it, and a
second BUY at t = 20 — only 20 seconds after the first, far less than the
claimed 60-second minimum interval — opens a second position (entry time
20) instead of being a no-op. -/
theorem c8_counterexample :
    ((runLoop 2 4 (1/10) 10
        [⟨0, 100, some Action.buy⟩, ⟨10, 104, some Action.hold⟩, ⟨20, 100, some Action.buy⟩]
        ⟨10000, none, [], []⟩).toOption.map
      (fun st => (st.trades.length, st.position.map (fun p => p.entryTime)))) =
    some (1, some 20) := by
  norm_num [runLoop, processSignal, Except.toOption]

/-! ### Claim C10 -/

/-- Helper: every trade `_process_signal` ever emits is long and closed by
stop-loss or take-profit — the only two trade-constructing branches write
those literals. -/
theorem processSignal_newTrades_long (sig : Option Action) (price t bal : ℚ)
    (pos : Option Position) (sl tp fee psz : ℚ) (r : StepResult)
    (h : processSignal sig price t bal pos sl tp fee psz = .ok r) :
    ∀ tr ∈ r.newTrades,
      tr.direction = .long ∧ (tr.reason = .stopLoss ∨ tr.reason = .takeProfit) := by
  cases pos with
  | none =>
    cases sig with
    | none => simp [processSignal] at h
    | some a =>
      by_cases hb : a = .buy
      · by_cases hp : price = 0
        · simp [processSignal, hb, hp] at h
        · simp [processSignal, hb, hp] at h
          rw [← h]
          simp
      · simp [processSignal, hb] at h
        rw [← h]
        simp
  | some p =>
    by_cases hd : p.direction = .long
    · by_cases hsl : price ≤ p.stopLoss
      · by_cases hep : p.entryPrice = 0
        · simp [processSignal, hd, hsl, hep] at h
        · simp [processSignal, hd, hsl, hep] at h
          rw [← h]
          simp
      · by_cases htp : price ≥ p.takeProfit
        · by_cases hep : p.entryPrice = 0
          · simp [processSignal, hd, hsl, htp, hep] at h
          · simp [processSignal, hd, hsl, htp, hep] at h
            rw [← h]
            simp
        · simp [processSignal, hd, hsl, htp] at h
          rw [← h]
          simp
    · simp [processSignal, hd] at h
      rw [← h]
      simp

/-- Helper: the bar loop preserves the long-only stop/take trade shape of
the ledger. -/
theorem runLoop_trades_long :
    ∀ (bars : List Bar) (sl tp fee psz : ℚ) (st st2 : LoopState),
      runLoop sl tp fee psz bars st = .ok st2 →
      (∀ tr ∈ st.trades,
        tr.direction = .long ∧ (tr.reason = .stopLoss ∨ tr.reason = .takeProfit)) →
      ∀ tr ∈ st2.trades,
        tr.direction = .long ∧ (tr.reason = .stopLoss ∨ tr.reason = .takeProfit) := by
  intro bars
  induction bars with
  | nil =>
    intro sl tp fee psz st st2 h hst
    simp only [runLoop] at h
    cases h
    exact hst
  | cons bar rest ih =>
    intro sl tp fee psz st st2 h hst
    simp only [runLoop] at h
    cases hps : processSignal bar.signal bar.price bar.timestamp st.balance st.position
        sl tp fee psz with
    | error e => rw [hps] at h; exact absurd h (by simp)
    | ok r =>
      rw [hps] at h
      refine ih sl tp fee psz _ st2 h ?_
      intro tr htr
      rcases List.mem_append.mp htr with h1 | h1
      · exact hst tr h1
      · exact processSignal_newTrades_long bar.signal bar.price bar.timestamp st.balance
          st.position sl tp fee psz r hps tr h1

/-- C10: in the backtest, a position is opened only by a BUY when no
position is open and it is always long; SELL (like HOLD) opens nothing
from the flat state; with a position open the signal is ignored entirely,
so SELL never closes one; and every trade in any run's ledger is long with
exit reason stop-loss or take-profit, never signal-reversal or manual. -/
theorem c10_backtest_long_only :
    (∀ (a : Action) (price t bal sl tp fee psz : ℚ), a ≠ .buy →
      processSignal (some a) price t bal none sl tp fee psz = .ok ⟨bal, none, []⟩) ∧
    (∀ (a : Action) (price t bal sl tp fee psz : ℚ) (r : StepResult) (p : Position),
      processSignal (some a) price t bal none sl tp fee psz = .ok r →
      r.position = some p → a = .buy ∧ p.direction = .long ∧ r.newTrades = []) ∧
    (∀ (sig1 sig2 : Option Action) (price t bal sl tp fee psz : ℚ) (p : Position),
      processSignal sig1 price t bal (some p) sl tp fee psz =
        processSignal sig2 price t bal (some p) sl tp fee psz) ∧
    (∀ (sl tp fee psz ic : ℚ) (bars : List Bar) (st2 : LoopState),
      runLoop sl tp fee psz bars ⟨ic, none, [], []⟩ = .ok st2 →
      ∀ tr ∈ st2.trades,
        tr.direction = .long ∧ (tr.reason = .stopLoss ∨ tr.reason = .takeProfit)) := by
  refine ⟨?_, ?_, ?_, ?_⟩
  · intro a price t bal sl tp fee psz hb
    cases a with
    | buy => exact absurd rfl hb
    | sell => simp [processSignal]
    | hold => simp [processSignal]
  · intro a price t bal sl tp fee psz r p h hp
    by_cases hb : a = .buy
    · subst hb
      by_cases hprice : price = 0
      · simp [processSignal, hprice] at h
      · simp [processSignal, hprice] at h
        rw [← h] at hp
        simp at hp
        refine ⟨rfl, ?_, by rw [← h]⟩
        rw [← hp]
    · simp [processSignal, hb] at h
      rw [← h] at hp
      simp at hp
  · intro sig1 sig2 price t bal sl tp fee psz p
    exact processSignal_ignores_signal_when_open sig1 sig2 price t bal p sl tp fee psz
  · intro sl tp fee psz ic bars st2 h
    exact runLoop_trades_long bars sl tp fee psz ⟨ic, none, [], []⟩ st2 h (by simp)

/-- Witness for C10: a SELL from the flat state is a no-op; a concrete BUY
from the flat state opens a long position with no trade emitted; and the
ledger of a concrete profitable run consists of long stop/take trades. -/
theorem c10_witness :
    processSignal (some Action.sell) 100 0 1000 none 2 4 (1/10) 10 = .ok ⟨1000, none, []⟩ ∧
    (Action.buy = Action.buy ∧ Position.direction ⟨0, 100, 1, .long, 98, 104⟩ = .long ∧
      ([] : List Trade) = []) :=
  ⟨c10_backtest_long_only.1 Action.sell 100 0 1000 2 4 (1/10) 10 (by decide),
    c10_backtest_long_only.2.1 Action.buy 100 0 1000 2 4 (1/10) 10
      ⟨9999/10, some ⟨0, 100, 1, .long, 98, 104⟩, []⟩ ⟨0, 100, 1, .long, 98, 104⟩
      (by norm_num [processSignal]) rfl⟩

/-! ### Helper lemmas for run totality -/

/-- Helper: `_process_signal` returns normally whenever the bar carries an
action, the bar price is nonzero, and any open position has a nonzero entry
price; the resulting position (if any) again has a nonzero entry price. -/
theorem processSignal_ok (sig : Option Action) (price t bal : ℚ) (pos : Option Position)
    (sl tp fee psz : ℚ) (hsig : sig.isSome) (hprice : price ≠ 0)
    (hpos : ∀ p, pos = some p → p.entryPrice ≠ 0) :
    ∃ r : StepResult, processSignal sig price t bal pos sl tp fee psz = .ok r ∧
      (∀ p, r.position = some p → p.entryPrice ≠ 0) := by
  cases pos with
  | none =>
    cases sig with
    | none => simp at hsig
    | some a =>
      cases a with
      | buy =>
        refine ⟨⟨bal - bal * psz / 100 * fee / 100,
          some ⟨t, price, bal * psz / 100 / price, .long, price * (1 - sl / 100),
            price * (1 + tp / 100)⟩, []⟩, by simp [processSignal, hprice], ?_⟩
        intro p hp
        simp at hp
        rw [← hp]
        exact hprice
      | sell => exact ⟨⟨bal, none, []⟩, by simp [processSignal], by simp⟩
      | hold => exact ⟨⟨bal, none, []⟩, by simp [processSignal], by simp⟩
  | some p =>
    have hep := hpos p rfl
    by_cases hd : p.direction = .long
    · by_cases hsl : price ≤ p.stopLoss
      · exact ⟨⟨bal + p.amount * price - p.amount * price * fee / 100, none,
          [⟨p.entryTime, t, p.entryPrice, price, p.amount, .long,
            (price / p.entryPrice - 1) * 100, .stopLoss⟩]⟩,
          by simp [processSignal, hd, hsl, hep], by simp⟩
      · by_cases htp : price ≥ p.takeProfit
        · exact ⟨⟨bal + p.amount * price - p.amount * price * fee / 100, none,
            [⟨p.entryTime, t, p.entryPrice, price, p.amount, .long,
              (price / p.entryPrice - 1) * 100, .takeProfit⟩]⟩,
            by simp [processSignal, hd, hsl, htp, hep], by simp⟩
        · refine ⟨⟨bal, some p, []⟩, by simp [processSignal, hd, hsl, htp], ?_⟩
          intro q hq
          simp at hq
          rw [← hq]
          exact hep
    · refine ⟨⟨bal, some p, []⟩, by simp [processSignal, hd], ?_⟩
      intro q hq
      simp at hq
      rw [← hq]
      exact hep

/-- Helper: the bar loop returns normally on bars with nonzero prices and
present actions; it appends exactly one equity point per bar and is the
identity on an empty bar list. -/
theorem runLoop_ok :
    ∀ (bars : List Bar) (sl tp fee psz : ℚ) (st : LoopState),
      (∀ b ∈ bars, b.price ≠ 0 ∧ b.signal.isSome) →
      (∀ p, st.position = some p → p.entryPrice ≠ 0) →
      ∃ st2, runLoop sl tp fee psz bars st = .ok st2 ∧
        (∀ p, st2.position = some p → p.entryPrice ≠ 0) ∧
        st2.equity.length = st.equity.length + bars.length ∧
        (bars = [] → st2 = st) := by
  intro bars
  induction bars with
  | nil =>
    intro sl tp fee psz st hbars hpos
    exact ⟨st, rfl, hpos, by simp, fun _ => rfl⟩
  | cons bar rest ih =>
    intro sl tp fee psz st hbars hpos
    have hb := hbars bar (List.mem_cons_self bar rest)
    obtain ⟨r, hr, hrpos⟩ := processSignal_ok bar.signal bar.price bar.timestamp st.balance
      st.position sl tp fee psz hb.2 hb.1 hpos
    obtain ⟨st2, hrun2, hpos2, hlen2, _⟩ := ih sl tp fee psz
      ⟨r.balance, r.position, st.trades ++ r.newTrades,
        st.equity ++ [⟨bar.timestamp, st.balance⟩]⟩
      (fun b hb2 => hbars b (List.mem_cons_of_mem _ hb2)) hrpos
    refine ⟨st2, ?_, hpos2, ?_, fun h => absurd h (by simp)⟩
    · simp only [runLoop]
      rw [hr]
      exact hrun2
    · rw [hlen2]
      simp
      omega

/-- Helper: the metrics computation returns normally whenever the initial
capital is nonzero and the equity curve is nonempty when trades exist. -/
theorem calculatePerformanceMetrics_ok (ic fb : ℚ) (trades : List Trade)
    (equity : List EquityPoint) (hic : ic ≠ 0) (h : trades ≠ [] → equity ≠ []) :
    ∃ m, calculatePerformanceMetrics ic fb trades equity = .ok m := by
  cases hval : calculatePerformanceMetrics ic fb trades equity with
  | error e =>
    exfalso
    by_cases ht : trades = []
    · rw [ht] at hval
      simp [calculatePerformanceMetrics] at hval
    · simp [calculatePerformanceMetrics, ht, hic, h ht] at hval
  | ok m => exact ⟨m, rfl⟩

/-! ### Claim C2 -/

/-- C2 (amended): for every symbol, date window, bar sequence whose bars
carry an action and a nonzero price, strategy parameters, and nonzero
initial capital, `run_backtest` returns normally with a report containing
the trade ledger, the equity curve, and the performance metrics (the report
assembly itself is modelled from the spec because `_generate_report` is
absent from the source).  Without the amendment the claim fails: a zero
initial capital with any completed trade, or a BUY bar at price zero,
raises `ZeroDivisionError` (see the counterexample). -/
theorem c2_run_returns_result
    (symbol : String) (startDate endDate initialCapital : ℚ) (params : Params)
    (marketData : List Bar)
    (hbars : ∀ b ∈ marketData, b.price ≠ 0 ∧ b.signal.isSome)
    (hic : initialCapital ≠ 0) :
    ∃ rep : Report,
      runBacktest symbol startDate endDate initialCapital params marketData = .ok rep := by
  have hbars2 : ∀ b ∈ marketData.filter
      (fun b => decide (startDate ≤ b.timestamp) && decide (b.timestamp ≤ endDate)),
      b.price ≠ 0 ∧ b.signal.isSome :=
    fun b hb => hbars b (List.mem_of_mem_filter hb)
  obtain ⟨st2, hrun, hposinv, hlen, hnil⟩ := runLoop_ok
    (marketData.filter
      (fun b => decide (startDate ≤ b.timestamp) && decide (b.timestamp ≤ endDate)))
    params.slPct params.tpPct params.feePct params.positionSizePct
    ⟨initialCapital, none, [], []⟩ hbars2 (by simp)
  have htr : st2.trades ≠ [] → st2.equity ≠ [] := by
    intro htne
    by_cases hbnil : marketData.filter
        (fun b => decide (startDate ≤ b.timestamp) && decide (b.timestamp ≤ endDate)) = []
    · rw [hnil hbnil] at htne
      simp at htne
    · have hpos : 0 < st2.equity.length := by
        rw [hlen]
        simp
        exact List.length_pos.mpr hbnil
      exact List.ne_nil_of_length_pos hpos
  obtain ⟨m, hm⟩ := calculatePerformanceMetrics_ok initialCapital st2.balance st2.trades
    st2.equity hic htr
  refine ⟨generateReport symbol startDate endDate initialCapital st2.balance m st2.trades
    st2.equity, ?_⟩
  simp only [runBacktest, hrun, hm]

/-- Witness for C2: a concrete one-bar backtest returns a report. -/
theorem c2_witness :
    (runBacktest "BTC/USDT" 0 100 10000 Params.default
      [⟨0, 100, some Action.buy⟩]).toOption.isSome = true := by
  obtain ⟨rep, hrep⟩ := c2_run_returns_result "BTC/USDT" 0 100 10000 Params.default
    [⟨0, 100, some Action.buy⟩] (by norm_num) (by norm_num)
  rw [hrep]
  rfl

/-- Counterexample for C2 as stated: with initial capital 0 — one of the
quantified inputs of the claim — a run whose single trade completes
reaches the metrics' `(final - initial) / initial` division and raises
`ZeroDivisionError` instead of returning a result. -/
theorem c2_counterexample :
    runBacktest "X" 0 100 0 Params.default
      [⟨0, 100, some Action.buy⟩, ⟨1, 110, some Action.hold⟩] =
    .error "ZeroDivisionError" := by
  norm_num [runBacktest, runLoop, processSignal, calculatePerformanceMetrics, List.filter,
    Params.default, List.cons_ne_nil]

/-! ### Claim C1 -/

/-- C1 is false of the code (a code bug): on the spec's own end-to-end
scenario (capital 10000, position size 20%, fee 0.1%, BUY at 100 then
take-profit exit at 110), the final balance is 12195.8 while
`initial_capital + Σ realized_pnl_notional − Σ commissions` is 10195.8:
the engine credits the whole exit notional at close but never debits the
entry notional at open, so each round trip silently creates the position
size (2000 here) out of nothing and the additive reconciliation fails. -/
theorem c1_balance_reconciliation_fails :
    ((runLoop 2 4 (1/10) 20
        [⟨0, 100, some Action.buy⟩, ⟨1, 100, some Action.hold⟩,
          ⟨2, 101, some Action.hold⟩, ⟨3, 110, some Action.sell⟩]
        ⟨10000, none, [], []⟩).toOption.map
      (fun st =>
        (st.balance,
          10000 + (st.trades.map (fun tr => tr.amount * (tr.exitPrice - tr.entryPrice))).sum
            - (st.trades.map (fun tr =>
                tr.amount * tr.entryPrice * (1/10) / 100 +
                  tr.amount * tr.exitPrice * (1/10) / 100)).sum))) =
      some (60979/5, 50979/5) ∧ (60979/5 : ℚ) ≠ 50979/5 := by
  constructor
  · norm_num [runLoop, processSignal, Except.toOption]
  · norm_num

/-! ### Claim C3 -/

/-- C3 is half-true and its balance clause is false of the code (same code
bug as C1): the spec scenario produces exactly one long trade with entry
100, exit 110 and pnl 10%, but the final balance is 12195.8 = 60979/5, not
the ≈ 10196 the claim states, because the entry notional is never deducted
from the balance. -/
theorem c3_end_to_end_scenario :
    runBacktest "BTC/USDT" 0 100 10000 ⟨2, 4, 1/10, 20⟩
      [⟨0, 100, some Action.buy⟩, ⟨1, 100, some Action.hold⟩,
        ⟨2, 101, some Action.hold⟩, ⟨3, 110, some Action.sell⟩] =
    .ok ⟨"BTC/USDT", 0, 100, 10000, 60979/5,
      [⟨0, 3, 100, 110, 20, .long, 10, .takeProfit⟩],
      [⟨0, 10000⟩, ⟨1, 9998⟩, ⟨2, 9998⟩, ⟨3, 9998⟩],
      ⟨10979/500, .inf, 1, 1/50, 1, 1, 0⟩⟩ := by
  norm_num [runBacktest, runLoop, processSignal, calculatePerformanceMetrics,
    calcMaxDrawdown, cummax, cummaxFrom, minimumFrom, generateReport, List.filter,
    List.cons_ne_nil]

/-! ### Claim C7 -/

/-- C7 (amended): `profit_factor` is the winning/losing pnl-percent ratio
when the summed losing pnl is nonzero, the explicitly encoded `+∞` exactly
when there is at least one trade and the summed losing pnl is zero — even
when the summed winning pnl is also zero, e.g. a ledger of zero-pnl trades
— and finite 0 when there are no trades at all. -/
theorem c7_profit_factor (ic fb : ℚ) (trades : List Trade) (equity : List EquityPoint)
    (m : Metrics) (h : calculatePerformanceMetrics ic fb trades equity = .ok m) :
    (trades = [] → m.profitFactor = .num 0) ∧
    (trades ≠ [] →
      ((m.profitFactor = XFloat.inf ↔
        |((trades.filter (fun tr => decide (tr.pnlPct ≤ 0))).map (fun tr => tr.pnlPct)).sum| = 0) ∧
      (|((trades.filter (fun tr => decide (tr.pnlPct ≤ 0))).map (fun tr => tr.pnlPct)).sum| > 0 →
        m.profitFactor = XFloat.num
          (((trades.filter (fun tr => decide (tr.pnlPct > 0))).map (fun tr => tr.pnlPct)).sum /
            |((trades.filter (fun tr => decide (tr.pnlPct ≤ 0))).map (fun tr => tr.pnlPct)).sum|)))) := by
  by_cases ht : trades = []
  · constructor
    · intro _
      rw [ht] at h
      simp only [calculatePerformanceMetrics, eq_self_iff_true, if_true,
        Except.ok.injEq] at h
      rw [← h]
    · intro hne
      exact absurd ht hne
  · constructor
    · intro h0
      exact absurd h0 ht
    · intro _
      by_cases hic : ic = 0
      · simp [calculatePerformanceMetrics, ht, hic] at h
      · by_cases heq : equity = []
        · simp [calculatePerformanceMetrics, ht, hic, heq] at h
        · simp only [calculatePerformanceMetrics, if_neg ht, if_neg hic, if_neg heq,
            Except.ok.injEq] at h
          rw [← h]
          constructor
          · constructor
            · intro hinf
              by_cases hl :
                  |((trades.filter (fun tr => decide (tr.pnlPct ≤ 0))).map
                    (fun tr => tr.pnlPct)).sum| > 0
              · rw [if_pos hl] at hinf
                exact absurd hinf (by simp)
              · exact le_antisymm (not_lt.mp hl) (abs_nonneg _)
            · intro h0
              rw [if_neg (by rw [h0]; exact lt_irrefl 0)]
          · intro hl
            rw [if_pos hl]

/-- Witness for C7: a one-trade losing ledger (pnl −10%) yields a finite
profit factor 0/10 = 0. -/
theorem c7_witness :
    (Metrics.mk (-1) (XFloat.num 0) 0 0 1 0 1).profitFactor = XFloat.num 0 := by
  have h := c7_profit_factor 1000 990 [⟨0, 1, 100, 90, 1, .long, -10, .stopLoss⟩] [⟨0, 1000⟩]
    ⟨-1, .num 0, 0, 0, 1, 0, 1⟩
    (by norm_num [calculatePerformanceMetrics, calcMaxDrawdown, cummax, cummaxFrom,
      minimumFrom, List.cons_ne_nil])
  have h2 := (h.2 (by simp)).2 (by norm_num)
  rw [h2]
  norm_num

/-- Counterexample for C7 as stated: a reachable run (stop-loss percentage
0, so the position closes at its entry price with pnl exactly 0) produces a
one-trade ledger whose summed winning pnl is 0, yet the profit factor is
the encoded `+∞` — the claim's "and the summed winning pnl is nonzero"
conjunct does not hold of the code, which tests only the losses. -/
theorem c7_counterexample :
    ((runBacktest "BTC/USDT" 0 100 10000 ⟨0, 4, 1/10, 20⟩
        [⟨0, 100, some Action.buy⟩, ⟨1, 100, some Action.hold⟩]).toOption.map
      (fun r => (r.metrics.profitFactor,
        ((r.trades.filter (fun tr => decide (tr.pnlPct > 0))).map (fun tr => tr.pnlPct)).sum,
        r.trades.length))) =
    some (XFloat.inf, 0, 1) := by
  norm_num [runBacktest, runLoop, processSignal, calculatePerformanceMetrics,
    calcMaxDrawdown, cummax, cummaxFrom, minimumFrom, generateReport, List.filter,
    List.cons_ne_nil, Except.toOption]

end TradingSystem
